import Mathlib

/-!
Verification development for the online-sales-dashboard repository.

The repository consists of two near-duplicate Streamlit scripts,
`src/app.py` and `src/app_updated.py`, that load a CSV of sales
transactions with pandas, filter it by user-selected criteria, and
compute aggregate summaries.  This file shallowly embeds the data model
and the filtering / aggregation / CSV pipeline of those scripts and
proves properties about them.

Modelling conventions:
* A dataframe row (one transaction) is a `Transaction` record; prices
  and the derived Sales column are exact rationals (`ℚ`), quantities are
  integers, dates are calendar dates compared lexicographically by
  (year, month, day) — for valid calendar dates this is exactly the
  pandas `Timestamp` order used by the scripts.
* Strings (country names, product names, CSV cells) are `List Char`,
  ordered lexicographically by code point exactly as Python compares
  `str` values.
* pandas `Series.isin`, boolean-mask filtering, and `groupby` are
  embedded as list filtering and grouping; `groupby(col)` sorts the
  group keys ascending (pandas default `sort=True`), and
  `sort_values` is embedded as a deterministic stable sort.
* The CSV layer models `pd.read_csv` + the loader's `dropna`,
  `pd.to_datetime(..., format='%m/%d/%Y')` and column accesses, and
  `DataFrame.to_csv(index=False).encode('utf-8')`; cells are character
  lists, a missing value is the empty cell.
-/

namespace SalesDash

/-- Character-list strings: CSV cells, country and product names.
Python string comparison is lexicographic by code point, which is
exactly the `List Char` lexicographic order. -/
abbrev Str := List Char

/-- Calendar date, the model of a `pandas.Timestamp` at day resolution
(the scripts parse dates with `format='%m/%d/%Y'`, so no time part). -/
structure Date where
  year : Nat
  month : Nat
  day : Nat
deriving DecidableEq, Repr

/-- Timestamp order on dates: lexicographic by (year, month, day).
For valid calendar dates this is the pandas `<=` used in the date
filter of both scripts. -/
def Date.le (a b : Date) : Bool :=
  decide (a.year < b.year) ||
    (decide (a.year = b.year) &&
      (decide (a.month < b.month) ||
        (decide (a.month = b.month) && decide (a.day ≤ b.day))))

/-- One row of the loaded dataframe.  `sales` is the derived column
added by `load_data` (`data['Sales'] = data['Price'] * data['Quantity']`). -/
structure Transaction where
  date : Date
  price : ℚ
  quantity : ℤ
  country : Str
  productName : Str
  sales : ℚ
deriving DecidableEq, Repr

/-- Filter criteria of `app.py`: the date-picker value (a list of
endpoint dates, possibly malformed, i.e. with fewer than two entries)
and the two multiselect selections. -/
structure Criteria where
  dateRange : List Date
  countries : List Str
  products : List Str

/-- Date filter of both scripts:
`if len(date_range) == 2: data[(data['Date'] >= start) & (data['Date'] <= end)]
 else: filtered_data = data`. -/
def dateFilter (dr : List Date) (d : List Transaction) : List Transaction :=
  match dr with
  | [s, e] => d.filter (fun r => Date.le s r.date && Date.le r.date e)
  | _ => d

/-- Category filter of `app.py` (line 38):
`filtered_data[(filtered_data['Country'].isin(selected_country)) &
 (filtered_data['ProductName'].isin(selected_product))]`.
`isin` is membership of the row's value in the selected list. -/
def categoryFilter (cs ps : List Str) (d : List Transaction) : List Transaction :=
  d.filter (fun r => cs.contains r.country && ps.contains r.productName)

/-- The `filtered_data` view of `app.py`: the date filter followed by the
country/product `isin` filter. -/
def filtered_data (d : List Transaction) (c : Criteria) : List Transaction :=
  categoryFilter c.countries c.products (dateFilter c.dateRange d)

/-- Country selectbox filter of `app_updated.py` (lines 54-58): `"All"`
(modelled as `none`) applies no filter, otherwise
`filtered_data[filtered_data['Country'] == selected_country]`. -/
def countrySelectFilter (sel : Option Str) (d : List Transaction) : List Transaction :=
  match sel with
  | none => d
  | some c => d.filter (fun r => r.country == c)

/-- Product selectbox filter of `app_updated.py` (lines 61-65). -/
def productSelectFilter (sel : Option Str) (d : List Transaction) : List Transaction :=
  match sel with
  | none => d
  | some p => d.filter (fun r => r.productName == p)

/-- Price-range slider filter of `app_updated.py` (lines 70-76):
`(filtered_data['Price'] >= price_range[0]) & (filtered_data['Price'] <= price_range[1])`. -/
def priceRangeFilter (plo phi : ℚ) (d : List Transaction) : List Transaction :=
  d.filter (fun r => decide (plo ≤ r.price) && decide (r.price ≤ phi))

/-- Quantity-range slider filter of `app_updated.py` (lines 79-85). -/
def quantityRangeFilter (qlo qhi : ℤ) (d : List Transaction) : List Transaction :=
  d.filter (fun r => decide (qlo ≤ r.quantity) && decide (r.quantity ≤ qhi))

/-- The `filtered_data` view of `app_updated.py` (lines 44-85): date
filter, then country and product selectboxes, then the price and
quantity range sliders, in the order of the script. -/
def filteredUpdated (d : List Transaction) (dr : List Date) (cSel pSel : Option Str)
    (plo phi : ℚ) (qlo qhi : ℤ) : List Transaction :=
  quantityRangeFilter qlo qhi
    (priceRangeFilter plo phi
      (productSelectFilter pSel
        (countrySelectFilter cSel (dateFilter dr d))))

/-- Minimum of a column over the dataframe, as in `data['Price'].min()`.
The `dflt` value is returned for an empty frame (where pandas would
yield NaN; the scripts only evaluate this on the loaded, nonempty
dataset). -/
def colMin {α : Type} [LinearOrder α] (f : Transaction → α) (dflt : α) :
    List Transaction → α
  | [] => dflt
  | x :: xs => (xs.map f).foldl min (f x)

/-- Maximum of a column over the dataframe, as in `data['Price'].max()`. -/
def colMax {α : Type} [LinearOrder α] (f : Transaction → α) (dflt : α) :
    List Transaction → α
  | [] => dflt
  | x :: xs => (xs.map f).foldl max (f x)

/-- Slider lower bound `float(data['Price'].min())`. -/
def minPrice (d : List Transaction) : ℚ := colMin (fun r => r.price) 0 d

/-- Slider upper bound `float(data['Price'].max())`. -/
def maxPrice (d : List Transaction) : ℚ := colMax (fun r => r.price) 0 d

/-- Slider lower bound `int(data['Quantity'].min())`. -/
def minQty (d : List Transaction) : ℤ := colMin (fun r => r.quantity) 0 d

/-- Slider upper bound `int(data['Quantity'].max())`. -/
def maxQty (d : List Transaction) : ℤ := colMax (fun r => r.quantity) 0 d

/-- Stable insertion step: `x` is placed before the first element that
does not strictly precede it under `lt`.  Inserting earlier-input
elements last therefore keeps the original relative order of ties. -/
def insertBy {α : Type} (lt : α → α → Bool) (x : α) : List α → List α
  | [] => [x]
  | y :: ys => if lt y x then y :: insertBy lt x ys else x :: y :: ys

/-- Deterministic stable sort, the embedding of pandas
`sort_values` / sorted `groupby` keys.  (pandas' default quicksort has
no specified tie order; the embedding fixes the deterministic stable
choice, which agrees with pandas wherever pandas specifies the order.) -/
def sortBy {α : Type} (lt : α → α → Bool) : List α → List α
  | [] => []
  | x :: xs => insertBy lt x (sortBy lt xs)

/-- First-seen deduplication, the embedding of `Series.unique()`:
first occurrences, in order of first appearance. -/
def uniqueAux {α : Type} [BEq α] (seen : List α) : List α → List α
  | [] => []
  | x :: xs => if seen.contains x then uniqueAux seen xs
               else x :: uniqueAux (x :: seen) xs

/-- `data[col].unique()`: the distinct values in first-seen order. -/
def uniqueVals {α : Type} [BEq α] (l : List α) : List α := uniqueAux [] l

/-- Ascending lexicographic comparison used for sorted `groupby` keys. -/
def strAscLt (a b : Str) : Bool := decide (a < b)

/-- Descending-by-value comparison of `sort_values(ascending=False)`
applied to a summed `groupby` result. -/
def valDescLt {κ : Type} (a b : κ × ℚ) : Bool := decide (b.2 < a.2)

/-- Ascending (Year, Month) comparison for the heatmap group keys. -/
def ymAscLt (a b : Nat × Nat) : Bool :=
  decide (a.1 < b.1) || (decide (a.1 = b.1) && decide (a.2 < b.2))

/-- `view.groupby(key)['Sales'].sum()`: the distinct keys sorted
ascending by `lt` (pandas `groupby` default `sort=True`), each paired
with the sum of `Sales` over its group. -/
def groupSum {κ : Type} [BEq κ] (lt : κ → κ → Bool) (key : Transaction → κ)
    (view : List Transaction) : List (κ × ℚ) :=
  (sortBy lt (uniqueVals (view.map key))).map
    (fun k => (k, ((view.filter (fun r => key r == k)).map (fun r => r.sales)).sum))

/-- `filtered_data['Sales'].sum()`, the Total Sales metric. -/
def totalSales (view : List Transaction) : ℚ := (view.map (fun r => r.sales)).sum

/-- `len(filtered_data)`, the Total Transactions metric. -/
def transactionCount (view : List Transaction) : Nat := view.length

/-- `filtered_data['Quantity'].sum()`, the Total Quantity Sold metric. -/
def totalQuantity (view : List Transaction) : ℤ :=
  (view.map (fun r => r.quantity)).sum

/-- `filtered_data.groupby('ProductName')['Sales'].sum()
.sort_values(ascending=False).head(n)`, with the spec's explicit `n`
(`head(10)` in both scripts). -/
def topProductsBySales (view : List Transaction) (n : Nat) : List (Str × ℚ) :=
  (sortBy valDescLt (groupSum strAscLt (fun r => r.productName) view)).take n

/-- The `top_products` value computed by both scripts (`head(10)`). -/
def top_products (view : List Transaction) : List (Str × ℚ) :=
  topProductsBySales view 10

/-- `filtered_data.groupby('Country')['Sales'].sum().sort_values(ascending=False)`. -/
def salesByCountry (view : List Transaction) : List (Str × ℚ) :=
  sortBy valDescLt (groupSum strAscLt (fun r => r.country) view)

/-- The heatmap cells: `filtered_data.groupby([Date.dt.year, Date.dt.month])['Sales'].sum()`,
keys ascending (pandas sorted groupby). -/
def seasonalHeatmap (view : List Transaction) : List ((Nat × Nat) × ℚ) :=
  groupSum ymAscLt (fun r => (r.date.year, r.date.month)) view

/-- Count of distinct product names in a view. -/
def distinctProductCount (view : List Transaction) : Nat :=
  (uniqueVals (view.map (fun r => r.productName))).length

/-- The predictive calculator of both scripts: `price_input * quantity_input`. -/
def predict (price : ℚ) (quantity : ℤ) : ℚ := price * (quantity : ℚ)

/-- Specification order of the `top_products` rows: strictly greater
summed sales first, ties ordered by ascending product name (the order
the sorted `groupby` output leaves ties in under a stable sort). -/
def topOrder (a b : Str × ℚ) : Prop := b.2 < a.2 ∨ (a.2 = b.2 ∧ a.1 < b.1)

/-! ### CSV layer -/

/-- One decimal digit character. -/
def digitChar : Nat → Char
  | 0 => '0'
  | 1 => '1'
  | 2 => '2'
  | 3 => '3'
  | 4 => '4'
  | 5 => '5'
  | 6 => '6'
  | 7 => '7'
  | 8 => '8'
  | _ => '9'

/-- Fuel-driven decimal rendering of a natural number (the fuel keeps
the recursion structural; `natChars` supplies enough fuel). -/
def natCharsAux : Nat → Nat → List Char
  | 0, _ => []
  | fuel + 1, n =>
      if n = 0 then [] else natCharsAux fuel (n / 10) ++ [digitChar (n % 10)]

/-- Decimal rendering of a natural number. -/
def natChars (n : Nat) : List Char :=
  if n = 0 then ['0'] else natCharsAux n n

/-- Zero-padded two-digit rendering, as in ISO date components. -/
def pad2 (n : Nat) : List Char :=
  if n < 10 then '0' :: natChars n else natChars n

/-- Decimal rendering of an integer. -/
def intChars (z : ℤ) : List Char :=
  if z < 0 then '-' :: natChars z.natAbs else natChars z.natAbs

/-- Rendering of a rational CSV cell.  pandas renders a float cell as a
decimal numeral; this stand-in renders the exact rational (integral
values as `n.0`, others as numerator.denominator).  The theorems below
use only that the rendering is a nonempty cell containing no `'/'`. -/
def ratChars (q : ℚ) : List Char :=
  if q.den = 1 then intChars q.num ++ ['.', '0']
  else intChars q.num ++ '.' :: natChars q.den

/-- `DataFrame.to_csv` renders a datetime column in ISO form
`YYYY-MM-DD` (zero-padded month and day), not the `%m/%d/%Y` form the
loader parses. -/
def dateToCsv (d : Date) : List Char :=
  natChars d.year ++ '-' :: (pad2 d.month ++ '-' :: pad2 d.day)

/-- Split a character list at every occurrence of `sep`. -/
def splitOnChar (sep : Char) : List Char → List (List Char)
  | [] => [[]]
  | c :: rest =>
      match splitOnChar sep rest with
      | [] => if c = sep then [[], []] else [[c]]
      | h :: t => if c = sep then [] :: h :: t else (c :: h) :: t

/-- Parse a nonempty all-digit cell as a natural number. -/
def parseNat (cs : List Char) : Option Nat :=
  if cs = [] then none
  else if cs.all Char.isDigit then
    some (cs.foldl (fun a c => a * 10 + (c.toNat - 48)) 0)
  else none

/-- Parse an optionally-signed integer cell. -/
def parseInt (cs : List Char) : Option ℤ :=
  match cs with
  | '-' :: rest => (parseNat rest).map (fun n => -(n : ℤ))
  | _ => (parseNat cs).map (fun n => (n : ℤ))

/-- Parse a decimal numeral cell as an exact rational, as pandas
`read_csv` type inference does for the Price column
(non-negative decimals in this dataset). -/
def parseRat (cs : List Char) : Option ℚ :=
  match splitOnChar '.' cs with
  | [w] => (parseInt w).map (fun z => (z : ℚ))
  | [w, f] =>
      match parseInt w, parseNat f with
      | some z, some fr =>
          some ((z : ℚ) + (fr : ℚ) / ((10 : ℚ) ^ f.length))
      | _, _ => none
  | _ => none

/-- `pd.to_datetime(cell, format='%m/%d/%Y')`: exactly three
`'/'`-separated numeric fields, month/day/year, with basic calendar
bounds. -/
def parseDateMDY (cs : List Char) : Option Date :=
  match splitOnChar '/' cs with
  | [m, d, y] =>
      match parseNat m, parseNat d, parseNat y with
      | some mo, some dy, some yr =>
          if 1 ≤ mo ∧ mo ≤ 12 ∧ 1 ≤ dy ∧ dy ≤ 31 then some (Date.mk yr mo dy)
          else none
      | _, _, _ => none
  | _ => none

/-- A parsed CSV table: the header row and the data rows, each a list
of cells.  An absent value is the empty cell (pandas NaN). -/
structure Csv where
  header : List Str
  rows : List (List Str)

/-- Position of a named column in the header (`data[name]` succeeds iff
this is `some`). -/
def colIdx (header : List Str) (name : Str) : Option Nat :=
  header.findIdx? (fun c => c == name)

/-- Cell of a row at a column index. -/
def cellAt (row : List Str) (i : Nat) : Str := row.getD i []

/-- `data.dropna()`: keep only the rows that have a value in every
column (rows shorter than the header are rows with missing values). -/
def dropna (csv : Csv) : List (List Str) :=
  csv.rows.filter (fun r => r.length == csv.header.length && r.all (fun c => !(c == [])))

/-- The failure modes of the loaders.  `keyError` models the pandas
`KeyError` raised by `data[col]` on an absent column (`app.py` has no
explicit column check); `missingColumns` models the explicit
required-columns check of `app_updated.py` (`st.error` + `st.stop`);
`dateParse` models the `ValueError` of strict-format `pd.to_datetime`;
`valueError` models a non-numeric Price/Quantity cell. -/
inductive LoadError where
  | keyError : LoadError
  | missingColumns : LoadError
  | dateParse : LoadError
  | valueError : LoadError
deriving DecidableEq, Repr

/-- Column-wise fallible map: the first failing cell of the column
aborts the load, as a raised pandas exception does. -/
def mapExcept {α β : Type} (f : α → Except LoadError β) :
    List α → Except LoadError (List β)
  | [] => Except.ok []
  | x :: xs =>
      match f x with
      | Except.error e => Except.error e
      | Except.ok y =>
          match mapExcept f xs with
          | Except.error e => Except.error e
          | Except.ok ys => Except.ok (y :: ys)

/-- Assemble one loaded row; the derived column is
`data['Sales'] = data['Price'] * data['Quantity']`. -/
def mkTransaction (dt : Date) (p : ℚ) (q : ℤ) (c n : Str) : Transaction :=
  Transaction.mk dt p q c n (p * (q : ℚ))

/-- Parse the Date cell of one row, the per-row step of
`pd.to_datetime(data['Date'], format='%m/%d/%Y')`; a mismatched cell
raises and aborts the load. -/
def dateCell (di : Nat) (r : List Str) : Except LoadError Date :=
  match parseDateMDY (cellAt r di) with
  | some dt => Except.ok dt
  | none => Except.error LoadError.dateParse

/-- Parse the Price cell of one row (read_csv numeric inference). -/
def priceCell (pIdx : Nat) (r : List Str) : Except LoadError ℚ :=
  match parseRat (cellAt r pIdx) with
  | some p => Except.ok p
  | none => Except.error LoadError.valueError

/-- Parse the Quantity cell of one row (read_csv numeric inference). -/
def qtyCell (qIdx : Nat) (r : List Str) : Except LoadError ℤ :=
  match parseInt (cellAt r qIdx) with
  | some q => Except.ok q
  | none => Except.error LoadError.valueError

/-- Extract a column the loader never validates (Country, ProductName):
when the column is absent the dataframe simply lacks it, and nothing in
the loader fails — the fields are modelled as empty cells. -/
def optionalCol (header : List Str) (name : Str) (rows : List (List Str)) : List Str :=
  rows.map (fun r =>
    match colIdx header name with
    | some ci => cellAt r ci
    | none => [])

/-- Zip the parsed columns back into records (the dataframe after
`data['Sales'] = data['Price'] * data['Quantity']`). -/
def assembleRows (dates : List Date) (prices : List ℚ) (quants : List ℤ)
    (countries names : List Str) (n : Nat) : List Transaction :=
  (List.range n).map (fun i =>
    mkTransaction (dates.getD i (Date.mk 0 0 0)) (prices.getD i 0)
      (quants.getD i 0) (countries.getD i []) (names.getD i []))

/-- Shared body of both loaders after `dropna`: the strict `%m/%d/%Y`
conversion of `data['Date']`, then
`data['Sales'] = data['Price'] * data['Quantity']`.  A column access on
an absent column raises `keyError` (`app.py` has no explicit check);
errors surface in the scripts' order: the Date access and conversion,
then the Price/Quantity accesses and arithmetic. -/
def loadParsed (header : List Str) (rows : List (List Str)) :
    Except LoadError (List Transaction) :=
  match colIdx header "Date".toList with
  | none => Except.error LoadError.keyError
  | some di =>
      match mapExcept (fun r => dateCell di r) rows with
      | Except.error e => Except.error e
      | Except.ok dates =>
          match colIdx header "Price".toList, colIdx header "Quantity".toList with
          | none, _ => Except.error LoadError.keyError
          | some _, none => Except.error LoadError.keyError
          | some pIdx, some qIdx =>
              match mapExcept (fun r => priceCell pIdx r) rows,
                  mapExcept (fun r => qtyCell qIdx r) rows with
              | Except.error e, _ => Except.error e
              | Except.ok _, Except.error e => Except.error e
              | Except.ok prices, Except.ok quants =>
                  Except.ok (assembleRows dates prices quants
                    (optionalCol header "Country".toList rows)
                    (optionalCol header "ProductName".toList rows) rows.length)

/-- `read_csv` + `dropna()` + the parsing body. -/
def loadRows (csv : Csv) : Except LoadError (List Transaction) :=
  loadParsed csv.header (dropna csv)

/-- `load_data` of `app.py` (lines 10-15): no column-presence check
beyond the accesses themselves. -/
def load_data (csv : Csv) : Except LoadError (List Transaction) := loadRows csv

/-- The required columns of `app_updated.py` (line 15). -/
def requiredColumns : List Str :=
  ["Date".toList, "Price".toList, "Quantity".toList, "Country".toList,
   "ProductName".toList]

/-- `load_data` of `app_updated.py` (lines 10-22): after `dropna`, the
explicit required-columns check halts the script
(`st.error(...); st.stop()`) before the date conversion. -/
def load_data_updated (csv : Csv) : Except LoadError (List Transaction) :=
  if requiredColumns.all (fun c => (colIdx csv.header c).isSome) then loadRows csv
  else Except.error LoadError.missingColumns

/-- The updated script's load-then-filter pipeline: the filter stages
run only when the load succeeded. -/
def pipelineUpdated (csv : Csv) (dr : List Date) (cSel pSel : Option Str)
    (plo phi : ℚ) (qlo qhi : ℤ) : Except LoadError (List Transaction) :=
  (load_data_updated csv).map
    (fun d => filteredUpdated d dr cSel pSel plo phi qlo qhi)

/-- Header row of the exported CSV: the loaded frame's columns, with
the derived Sales column appended last (pandas appends new columns). -/
def exportHeader : List Str :=
  ["Date".toList, "Price".toList, "Quantity".toList, "Country".toList,
   "ProductName".toList, "Sales".toList]

/-- One exported CSV row: `to_csv` renders the datetime cell in ISO
form and the numeric cells as decimal numerals. -/
def csvRow (r : Transaction) : List Str :=
  [dateToCsv r.date, ratChars r.price, intChars r.quantity,
   r.country, r.productName, ratChars r.sales]

/-- `convert_to_csv` of both scripts:
`df.to_csv(index=False).encode('utf-8')` — the header row and one row
per record of the filtered view. -/
def convert_to_csv (view : List Transaction) : Csv :=
  Csv.mk exportHeader (view.map csvRow)

/-- The `app.py` multiselect selection equivalent to an `app_updated.py`
country selectbox choice: `"All"` (`none`) corresponds to the
multiselect default `data['Country'].unique()`, a single choice to the
singleton selection. -/
def countrySelection (d : List Transaction) : Option Str → List Str
  | none => uniqueVals (d.map (fun r => r.country))
  | some c => [c]

/-- The `app.py` multiselect selection equivalent to an `app_updated.py`
product selectbox choice. -/
def productSelection (d : List Transaction) : Option Str → List Str
  | none => uniqueVals (d.map (fun r => r.productName))
  | some p => [p]

/-! ### Concrete sample data for the closed instantiations -/

/-- Sample transaction: 2 Widgets at 10 in the US on 1/1/2023. -/
def tUS : Transaction :=
  Transaction.mk (Date.mk 2023 1 1) 10 2 "US".toList "Widget".toList 20

/-- Sample transaction: 4 Gadgets at 5 in the UK on 2/1/2023. -/
def tUK : Transaction :=
  Transaction.mk (Date.mk 2023 2 1) 5 4 "UK".toList "Gadget".toList 20

/-- Sample transaction whose product name `B` is seen first. -/
def tProdB : Transaction :=
  Transaction.mk (Date.mk 2023 1 1) 10 2 "US".toList "B".toList 20

/-- Sample transaction whose product name `A` is seen second. -/
def tProdA : Transaction :=
  Transaction.mk (Date.mk 2023 1 2) 10 2 "US".toList "A".toList 20

/-- A view in which product `B` appears before product `A` and both
products have the same summed sales. -/
def viewTie : List Transaction := [tProdB, tProdA]

/-- A CSV source with valid rows that lacks the required Country
column. -/
def csvNoCountry : Csv :=
  Csv.mk ["Date".toList, "Price".toList, "Quantity".toList, "ProductName".toList]
    [["1/2/2023".toList, "10.0".toList, "2".toList, "Widget".toList]]

/-- A CSV source with no columns at all. -/
def csvNoHeader : Csv := Csv.mk [] []

/-- A CSV source with all required columns and no data rows. -/
def csvHeaderOnly : Csv := Csv.mk exportHeader []

/-! ### Basic lemmas about the filter engine -/

theorem contains_iff_mem {α : Type} [BEq α] [LawfulBEq α] (l : List α) (a : α) :
    l.contains a = true ↔ a ∈ l := by
  simp [List.contains, List.elem_iff]

theorem contains_singleton {α : Type} [BEq α] (a b : α) :
    [a].contains b = (b == a) := by
  cases hba : b == a <;> simp [List.contains, List.elem, hba]

theorem mem_dateFilter {dr : List Date} {d : List Transaction} {r : Transaction}
    (h : r ∈ dateFilter dr d) : r ∈ d := by
  rcases dr with _ | ⟨s, _ | ⟨e, _ | ⟨x, rest⟩⟩⟩
  · exact h
  · exact h
  · exact (List.mem_filter.mp h).1
  · exact h

theorem dateFilter_of_short {dr : List Date} (d : List Transaction)
    (h : dr.length < 2) : dateFilter dr d = d := by
  rcases dr with _ | ⟨s, _ | ⟨e, rest⟩⟩
  · rfl
  · rfl
  · exact absurd h (by simp)

theorem dateFilter_pair (s e : Date) (d : List Transaction) :
    dateFilter [s, e] d = d.filter (fun r => Date.le s r.date && Date.le r.date e) := rfl

theorem mem_categoryFilter {cs ps : List Str} {d : List Transaction} {r : Transaction}
    (h : r ∈ categoryFilter cs ps d) : r ∈ d :=
  (List.mem_filter.mp h).1

theorem mem_filtered_data {d : List Transaction} {c : Criteria} {r : Transaction}
    (h : r ∈ filtered_data d c) : r ∈ d :=
  mem_dateFilter (mem_categoryFilter h)

theorem mem_countrySelectFilter {sel : Option Str} {d : List Transaction} {r : Transaction}
    (h : r ∈ countrySelectFilter sel d) : r ∈ d := by
  rcases sel with _ | c
  · exact h
  · exact (List.mem_filter.mp h).1

theorem mem_productSelectFilter {sel : Option Str} {d : List Transaction} {r : Transaction}
    (h : r ∈ productSelectFilter sel d) : r ∈ d := by
  rcases sel with _ | p
  · exact h
  · exact (List.mem_filter.mp h).1

theorem mem_priceRangeFilter {plo phi : ℚ} {d : List Transaction} {r : Transaction}
    (h : r ∈ priceRangeFilter plo phi d) : r ∈ d :=
  (List.mem_filter.mp h).1

theorem mem_quantityRangeFilter {qlo qhi : ℤ} {d : List Transaction} {r : Transaction}
    (h : r ∈ quantityRangeFilter qlo qhi d) : r ∈ d :=
  (List.mem_filter.mp h).1

theorem mem_filteredUpdated {d : List Transaction} {dr : List Date}
    {cSel pSel : Option Str} {plo phi : ℚ} {qlo qhi : ℤ} {r : Transaction}
    (h : r ∈ filteredUpdated d dr cSel pSel plo phi qlo qhi) : r ∈ d :=
  mem_dateFilter (mem_countrySelectFilter (mem_productSelectFilter
    (mem_priceRangeFilter (mem_quantityRangeFilter h))))

/-! ### Column minima and maxima -/

theorem foldl_min_le_init {α : Type} [LinearOrder α] (l : List α) (a : α) :
    l.foldl min a ≤ a := by
  induction l generalizing a with
  | nil => exact le_refl a
  | cons x xs ih => exact le_trans (ih (min a x)) (min_le_left a x)

theorem foldl_min_le_mem {α : Type} [LinearOrder α] {x : α} {l : List α} (a : α)
    (hx : x ∈ l) : l.foldl min a ≤ x := by
  induction l generalizing a with
  | nil => cases hx
  | cons y ys ih =>
      rcases List.mem_cons.mp hx with rfl | hmem
      · exact le_trans (foldl_min_le_init ys (min a x)) (min_le_right a x)
      · exact ih (min a y) hmem

theorem init_le_foldl_max {α : Type} [LinearOrder α] (l : List α) (a : α) :
    a ≤ l.foldl max a := by
  induction l generalizing a with
  | nil => exact le_refl a
  | cons x xs ih => exact le_trans (le_max_left a x) (ih (max a x))

theorem mem_le_foldl_max {α : Type} [LinearOrder α] {x : α} {l : List α} (a : α)
    (hx : x ∈ l) : x ≤ l.foldl max a := by
  induction l generalizing a with
  | nil => cases hx
  | cons y ys ih =>
      rcases List.mem_cons.mp hx with rfl | hmem
      · exact le_trans (le_max_right a x) (init_le_foldl_max ys (max a x))
      · exact ih (max a y) hmem

theorem colMin_le {α : Type} [LinearOrder α] (f : Transaction → α) (dflt : α)
    {d : List Transaction} {r : Transaction} (hr : r ∈ d) : colMin f dflt d ≤ f r := by
  rcases d with _ | ⟨x, xs⟩
  · cases hr
  · rcases List.mem_cons.mp hr with rfl | hmem
    · exact foldl_min_le_init (xs.map f) (f r)
    · exact foldl_min_le_mem (f x) (List.mem_map.mpr ⟨r, hmem, rfl⟩)

theorem le_colMax {α : Type} [LinearOrder α] (f : Transaction → α) (dflt : α)
    {d : List Transaction} {r : Transaction} (hr : r ∈ d) : f r ≤ colMax f dflt d := by
  rcases d with _ | ⟨x, xs⟩
  · cases hr
  · rcases List.mem_cons.mp hr with rfl | hmem
    · exact init_le_foldl_max (xs.map f) (f r)
    · exact mem_le_foldl_max (f x) (List.mem_map.mpr ⟨r, hmem, rfl⟩)

/-! ### Lemmas about `uniqueVals` (`Series.unique`) -/

theorem uniqueAux_cons_of_mem {α : Type} [BEq α] [LawfulBEq α] {seen : List α}
    {x : α} (xs : List α) (h : x ∈ seen) :
    uniqueAux seen (x :: xs) = uniqueAux seen xs := by
  simp [uniqueAux, h]

theorem uniqueAux_cons_of_not_mem {α : Type} [BEq α] [LawfulBEq α] {seen : List α}
    {x : α} (xs : List α) (h : x ∉ seen) :
    uniqueAux seen (x :: xs) = x :: uniqueAux (x :: seen) xs := by
  simp [uniqueAux, h]

theorem mem_uniqueAux {α : Type} [BEq α] [LawfulBEq α] {y : α} {l : List α}
    (seen : List α) (hy : y ∈ l) (hseen : y ∉ seen) : y ∈ uniqueAux seen l := by
  induction l generalizing seen with
  | nil => cases hy
  | cons x xs ih =>
      by_cases hxs : x ∈ seen
      · rcases List.mem_cons.mp hy with rfl | hmem
        · exact absurd hxs hseen
        · rw [uniqueAux_cons_of_mem xs hxs]
          exact ih seen hmem hseen
      · rw [uniqueAux_cons_of_not_mem xs hxs]
        rcases eq_or_ne y x with rfl | hyx
        · exact List.mem_cons_self y _
        · rcases List.mem_cons.mp hy with rfl | hmem
          · exact absurd rfl hyx
          · refine List.mem_cons.mpr (Or.inr (ih (x :: seen) hmem ?_))
            intro h'
            rcases List.mem_cons.mp h' with rfl | h''
            · exact hyx rfl
            · exact hseen h''

theorem mem_uniqueVals {α : Type} [BEq α] [LawfulBEq α] {y : α} {l : List α}
    (hy : y ∈ l) : y ∈ uniqueVals l :=
  mem_uniqueAux [] hy (List.not_mem_nil y)

theorem uniqueAux_spec {α : Type} [BEq α] [LawfulBEq α] (seen : List α) (l : List α) :
    (uniqueAux seen l).Nodup ∧ ∀ y ∈ uniqueAux seen l, y ∉ seen := by
  induction l generalizing seen with
  | nil => exact ⟨List.nodup_nil, by intro y hy; cases hy⟩
  | cons x xs ih =>
      by_cases hxs : x ∈ seen
      · rw [uniqueAux_cons_of_mem xs hxs]
        exact ih seen
      · rw [uniqueAux_cons_of_not_mem xs hxs]
        obtain ⟨hnd, hsub⟩ := ih (x :: seen)
        refine ⟨?_, ?_⟩
        · rw [List.nodup_cons]
          exact ⟨fun hmem => (hsub x hmem) (List.mem_cons_self x seen), hnd⟩
        · intro y hy
          rcases List.mem_cons.mp hy with rfl | hy'
          · exact hxs
          · exact fun hmem => (hsub y hy') (List.mem_cons.mpr (Or.inr hmem))

theorem nodup_uniqueVals {α : Type} [BEq α] [LawfulBEq α] (l : List α) :
    (uniqueVals l).Nodup :=
  (uniqueAux_spec [] l).1

/-! ### Lemmas about the stable sort -/

theorem insertBy_cons_of_lt {α : Type} {lt : α → α → Bool} {z x : α} (zs : List α)
    (h : lt z x = true) : insertBy lt x (z :: zs) = z :: insertBy lt x zs := by
  simp [insertBy, h]

theorem insertBy_cons_of_not_lt {α : Type} {lt : α → α → Bool} {z x : α} (zs : List α)
    (h : lt z x = false) : insertBy lt x (z :: zs) = x :: z :: zs := by
  simp [insertBy, h]

theorem mem_insertBy {α : Type} (lt : α → α → Bool) (x y : α) (l : List α) :
    y ∈ insertBy lt x l ↔ y = x ∨ y ∈ l := by
  induction l with
  | nil => simp [insertBy]
  | cons z zs ih =>
      cases h : lt z x
      · rw [insertBy_cons_of_not_lt zs h]
        simp [List.mem_cons]
      · rw [insertBy_cons_of_lt zs h]
        simp only [List.mem_cons, ih]
        tauto

theorem mem_sortBy {α : Type} (lt : α → α → Bool) (y : α) (l : List α) :
    y ∈ sortBy lt l ↔ y ∈ l := by
  induction l with
  | nil => simp [sortBy]
  | cons x xs ih => simp [sortBy, mem_insertBy, ih]

theorem length_insertBy {α : Type} (lt : α → α → Bool) (x : α) (l : List α) :
    (insertBy lt x l).length = l.length + 1 := by
  induction l with
  | nil => rfl
  | cons z zs ih =>
      cases h : lt z x
      · rw [insertBy_cons_of_not_lt zs h]
        simp
      · rw [insertBy_cons_of_lt zs h]
        simp [ih]

theorem length_sortBy {α : Type} (lt : α → α → Bool) (l : List α) :
    (sortBy lt l).length = l.length := by
  induction l with
  | nil => rfl
  | cons x xs ih => simp [sortBy, length_insertBy, ih]

theorem nodup_insertBy {α : Type} (lt : α → α → Bool) (x : α) (l : List α)
    (hx : x ∉ l) (hl : l.Nodup) : (insertBy lt x l).Nodup := by
  induction l with
  | nil => simp [insertBy]
  | cons z zs ih =>
      rw [List.nodup_cons] at hl
      have hxz : x ≠ z := fun h => hx (h ▸ List.mem_cons_self z zs)
      have hxzs : x ∉ zs := fun h => hx (List.mem_cons.mpr (Or.inr h))
      cases h : lt z x
      · rw [insertBy_cons_of_not_lt zs h]
        rw [List.nodup_cons, List.nodup_cons]
        refine ⟨?_, hl.1, hl.2⟩
        intro hmem
        rcases List.mem_cons.mp hmem with rfl | hmem'
        · exact hxz rfl
        · exact hxzs hmem'
      · rw [insertBy_cons_of_lt zs h, List.nodup_cons]
        refine ⟨?_, ih hxzs hl.2⟩
        intro hmem
        rcases (mem_insertBy lt x z zs).mp hmem with rfl | hmem'
        · exact hxz rfl
        · exact hl.1 hmem'

theorem nodup_sortBy {α : Type} (lt : α → α → Bool) (l : List α) (hl : l.Nodup) :
    (sortBy lt l).Nodup := by
  induction l with
  | nil => exact List.nodup_nil
  | cons x xs ih =>
      rw [List.nodup_cons] at hl
      exact nodup_insertBy lt x (sortBy lt xs)
        (fun hmem => hl.1 ((mem_sortBy lt x xs).mp hmem)) (ih hl.2)

/-! ### Sortedness of the aggregation pipeline -/

theorem pairwise_insertBy_asc (x : Str) :
    ∀ (l : List Str), l.Pairwise (fun a b : Str => ¬ b < a) →
      (insertBy strAscLt x l).Pairwise (fun a b : Str => ¬ b < a) := by
  intro l
  induction l with
  | nil => intro _; simp [insertBy]
  | cons z zs ih =>
      intro hl
      rw [List.pairwise_cons] at hl
      cases h : strAscLt z x
      · rw [insertBy_cons_of_not_lt zs h, List.pairwise_cons]
        have hzx : ¬ z < x := of_decide_eq_false h
        refine ⟨?_, List.pairwise_cons.mpr ⟨hl.1, hl.2⟩⟩
        intro y hy
        rcases List.mem_cons.mp hy with rfl | hmem
        · exact hzx
        · exact not_lt.mpr (le_trans (not_lt.mp hzx) (not_lt.mp (hl.1 y hmem)))
      · rw [insertBy_cons_of_lt zs h, List.pairwise_cons]
        have hzx : z < x := of_decide_eq_true h
        refine ⟨?_, ih hl.2⟩
        intro y hy
        rcases (mem_insertBy _ x y zs).mp hy with rfl | hmem
        · exact not_lt.mpr (le_of_lt hzx)
        · exact hl.1 y hmem

theorem pairwise_sortBy_asc (l : List Str) :
    (sortBy strAscLt l).Pairwise (fun a b : Str => ¬ b < a) := by
  induction l with
  | nil => simp [sortBy]
  | cons x xs ih => exact pairwise_insertBy_asc x (sortBy strAscLt xs) ih

theorem pairwise_sortBy_strict (l : List Str) (hl : l.Nodup) :
    (sortBy strAscLt l).Pairwise (fun a b : Str => a < b) := by
  have h2 : (sortBy strAscLt l).Nodup := nodup_sortBy _ l hl
  exact ((pairwise_sortBy_asc l).and h2).imp
    (fun hab => lt_of_le_of_ne (not_lt.mp hab.1) hab.2)

theorem groupSum_pairwise_fst (key : Transaction → Str) (view : List Transaction) :
    (groupSum strAscLt key view).Pairwise
      (fun a b : Str × ℚ => a.1 < b.1) := by
  unfold groupSum
  exact List.pairwise_map.mpr
    (pairwise_sortBy_strict _ (nodup_uniqueVals _))

theorem pairwise_insertBy_desc (x : Str × ℚ) :
    ∀ (l : List (Str × ℚ)), l.Pairwise topOrder → (∀ y ∈ l, x.1 < y.1) →
      (insertBy valDescLt x l).Pairwise topOrder := by
  intro l
  induction l with
  | nil => intro _ _; simp [insertBy]
  | cons z zs ih =>
      intro hl hx
      rw [List.pairwise_cons] at hl
      cases h : valDescLt z x
      · rw [insertBy_cons_of_not_lt zs h, List.pairwise_cons]
        have hzx : z.2 ≤ x.2 := not_lt.mp (of_decide_eq_false h)
        refine ⟨?_, List.pairwise_cons.mpr ⟨hl.1, hl.2⟩⟩
        intro y hy
        rcases List.mem_cons.mp hy with rfl | hmem
        · rcases lt_or_eq_of_le hzx with hlt | heq
          · exact Or.inl hlt
          · exact Or.inr ⟨heq.symm, hx y (List.mem_cons_self y zs)⟩
        · rcases hl.1 y hmem with hlt | ⟨heq, _⟩
          · exact Or.inl (lt_of_lt_of_le hlt hzx)
          · rcases lt_or_eq_of_le hzx with hlt' | heq'
            · exact Or.inl (heq ▸ hlt')
            · exact Or.inr ⟨heq'.symm.trans heq,
                hx y (List.mem_cons.mpr (Or.inr hmem))⟩
      · rw [insertBy_cons_of_lt zs h, List.pairwise_cons]
        have hzx : x.2 < z.2 := of_decide_eq_true h
        refine ⟨?_, ih hl.2 (fun y hy => hx y (List.mem_cons.mpr (Or.inr hy)))⟩
        intro y hy
        rcases (mem_insertBy _ x y zs).mp hy with rfl | hmem
        · exact Or.inl hzx
        · exact hl.1 y hmem

theorem pairwise_sortBy_desc :
    ∀ (l : List (Str × ℚ)), l.Pairwise (fun a b : Str × ℚ => a.1 < b.1) →
      (sortBy valDescLt l).Pairwise topOrder := by
  intro l
  induction l with
  | nil => intro _; simp [sortBy]
  | cons x xs ih =>
      intro hl
      rw [List.pairwise_cons] at hl
      refine pairwise_insertBy_desc x (sortBy valDescLt xs) (ih hl.2) ?_
      intro y hy
      exact hl.1 y ((mem_sortBy _ y xs).mp hy)

/-! ### Lemmas about the CSV layer -/

theorem digitChar_ne_slash (n : Nat) : digitChar n ≠ '/' := by
  unfold digitChar
  split <;> decide

theorem mem_natCharsAux {c : Char} :
    ∀ (fuel n : Nat), c ∈ natCharsAux fuel n → ∃ m, c = digitChar m := by
  intro fuel
  induction fuel with
  | zero => intro n h; cases h
  | succ f ih =>
      intro n h
      by_cases hn : n = 0
      · simp [natCharsAux, hn] at h
      · rw [natCharsAux, if_neg hn] at h
        rcases List.mem_append.mp h with h1 | h2
        · exact ih _ h1
        · exact ⟨n % 10, List.mem_singleton.mp h2⟩

theorem natChars_ne_slash {c : Char} {n : Nat} (h : c ∈ natChars n) : c ≠ '/' := by
  unfold natChars at h
  by_cases hn : n = 0
  · rw [if_pos hn] at h
    rw [List.mem_singleton.mp h]
    decide
  · rw [if_neg hn] at h
    obtain ⟨m, rfl⟩ := mem_natCharsAux n n h
    exact digitChar_ne_slash m

theorem pad2_ne_slash {c : Char} {n : Nat} (h : c ∈ pad2 n) : c ≠ '/' := by
  unfold pad2 at h
  by_cases hn : n < 10
  · rw [if_pos hn] at h
    rcases List.mem_cons.mp h with rfl | h'
    · decide
    · exact natChars_ne_slash h'
  · rw [if_neg hn] at h
    exact natChars_ne_slash h

theorem dateToCsv_ne_slash {c : Char} (d : Date) (h : c ∈ dateToCsv d) : c ≠ '/' := by
  unfold dateToCsv at h
  rcases List.mem_append.mp h with h1 | h2
  · exact natChars_ne_slash h1
  · rcases List.mem_cons.mp h2 with rfl | h3
    · decide
    · rcases List.mem_append.mp h3 with h4 | h5
      · exact pad2_ne_slash h4
      · rcases List.mem_cons.mp h5 with rfl | h6
        · decide
        · exact pad2_ne_slash h6

theorem natChars_ne_nil (n : Nat) : natChars n ≠ [] := by
  unfold natChars
  by_cases hn : n = 0
  · rw [if_pos hn]
    simp
  · rw [if_neg hn]
    rcases Nat.exists_eq_succ_of_ne_zero hn with ⟨m, hm⟩
    rw [hm] at hn ⊢
    rw [natCharsAux, if_neg hn]
    exact List.append_ne_nil_of_right_ne_nil _ (by simp)

theorem intChars_ne_nil (z : ℤ) : intChars z ≠ [] := by
  unfold intChars
  by_cases hz : z < 0
  · rw [if_pos hz]
    simp
  · rw [if_neg hz]
    exact natChars_ne_nil _

theorem ratChars_ne_nil (q : ℚ) : ratChars q ≠ [] := by
  unfold ratChars
  by_cases hq : q.den = 1
  · rw [if_pos hq]
    exact List.append_ne_nil_of_right_ne_nil _ (by simp)
  · rw [if_neg hq]
    exact List.append_ne_nil_of_right_ne_nil _ (by simp)

theorem dateToCsv_ne_nil (d : Date) : dateToCsv d ≠ [] := by
  unfold dateToCsv
  exact List.append_ne_nil_of_right_ne_nil _ (by simp)

theorem splitOnChar_of_not_mem (sep : Char) :
    ∀ (cs : List Char), (∀ c ∈ cs, c ≠ sep) → splitOnChar sep cs = [cs] := by
  intro cs
  induction cs with
  | nil => intro _; rfl
  | cons c rest ih =>
      intro h
      have hc : c ≠ sep := h c (List.mem_cons_self c rest)
      have hrest := ih (fun x hx => h x (List.mem_cons.mpr (Or.inr hx)))
      simp [splitOnChar, hrest, hc]

theorem parseDateMDY_dateToCsv (d : Date) : parseDateMDY (dateToCsv d) = none := by
  have hsplit : splitOnChar '/' (dateToCsv d) = [dateToCsv d] :=
    splitOnChar_of_not_mem '/' (dateToCsv d) (fun c hc => dateToCsv_ne_slash d hc)
  unfold parseDateMDY
  rw [hsplit]

theorem csvRow_cells_ne_nil {r : Transaction} (hc : r.country ≠ [])
    (hp : r.productName ≠ []) : ∀ c ∈ csvRow r, c ≠ [] := by
  intro c hcc
  unfold csvRow at hcc
  simp only [List.mem_cons, List.not_mem_nil, or_false] at hcc
  rcases hcc with rfl | rfl | rfl | rfl | rfl | rfl
  · exact dateToCsv_ne_nil r.date
  · exact ratChars_ne_nil r.price
  · exact intChars_ne_nil r.quantity
  · exact hc
  · exact hp
  · exact ratChars_ne_nil r.sales

theorem dropna_convert_to_csv (view : List Transaction)
    (hfields : ∀ r ∈ view, r.country ≠ [] ∧ r.productName ≠ []) :
    dropna (convert_to_csv view) = view.map csvRow := by
  apply List.filter_eq_self.mpr
  intro row hrow
  obtain ⟨r, hr, rfl⟩ := List.mem_map.mp hrow
  rw [Bool.and_eq_true]
  constructor
  · rfl
  · rw [List.all_eq_true]
    intro c hcc
    have hne := csvRow_cells_ne_nil (hfields r hr).1 (hfields r hr).2 c hcc
    simp [hne]

theorem mapExcept_cons_error {α β : Type} {e : LoadError}
    (f : α → Except LoadError β) (x : α) (xs : List α)
    (h : f x = Except.error e) : mapExcept f (x :: xs) = Except.error e := by
  simp [mapExcept, h]

theorem dateCell_csvRow (di : Nat) (r : Transaction)
    (hdi : cellAt (csvRow r) di = dateToCsv r.date) :
    dateCell di (csvRow r) = Except.error LoadError.dateParse := by
  unfold dateCell
  rw [hdi, parseDateMDY_dateToCsv]

theorem loadParsed_date_error (header : List Str) (r0 : List Str)
    (rest : List (List Str)) (di : Nat)
    (hcol : colIdx header "Date".toList = some di)
    (herr : dateCell di r0 = Except.error LoadError.dateParse) :
    loadParsed header (r0 :: rest) = Except.error LoadError.dateParse := by
  unfold loadParsed
  split
  · next heq =>
      rw [hcol] at heq
      exact Option.noConfusion heq
  · next di' heq =>
      rw [hcol] at heq
      injection heq with hdd
      subst hdd
      rw [mapExcept_cons_error _ _ _ herr]

theorem loadParsed_sales {header : List Str} {rows : List (List Str)}
    {recs : List Transaction} (h : loadParsed header rows = Except.ok recs) :
    ∀ r ∈ recs, r.sales = r.price * (r.quantity : ℚ) := by
  unfold loadParsed at h
  split at h
  · exact Except.noConfusion h
  · split at h
    · exact Except.noConfusion h
    · split at h
      · exact Except.noConfusion h
      · exact Except.noConfusion h
      · split at h
        · exact Except.noConfusion h
        · exact Except.noConfusion h
        · rw [Except.ok.injEq] at h
          subst h
          intro r hr
          unfold assembleRows at hr
          obtain ⟨i, _, hi⟩ := List.mem_map.mp hr
          rw [← hi]
          rfl

theorem load_data_sales {csv : Csv} {recs : List Transaction}
    (h : load_data csv = Except.ok recs) :
    ∀ r ∈ recs, r.sales = r.price * (r.quantity : ℚ) :=
  loadParsed_sales h

theorem load_data_updated_sales {csv : Csv} {recs : List Transaction}
    (h : load_data_updated csv = Except.ok recs) :
    ∀ r ∈ recs, r.sales = r.price * (r.quantity : ℚ) := by
  unfold load_data_updated at h
  by_cases hreq : requiredColumns.all (fun c => (colIdx csv.header c).isSome) = true
  · rw [if_pos hreq] at h
    exact loadParsed_sales h
  · rw [if_neg hreq] at h
    exact Except.noConfusion h

theorem load_data_no_date_col {csv : Csv}
    (h : colIdx csv.header "Date".toList = none) :
    load_data csv = Except.error LoadError.keyError := by
  unfold load_data loadRows loadParsed
  rw [h]

theorem load_data_updated_missing {csv : Csv}
    (h : requiredColumns.all (fun c => (colIdx csv.header c).isSome) = false) :
    load_data_updated csv = Except.error LoadError.missingColumns := by
  unfold load_data_updated
  rw [h]
  rfl

/-! ### Commutation and identity lemmas for the filter stages -/

theorem dateFilter_filter_comm (dr : List Date) (p : Transaction → Bool)
    (l : List Transaction) :
    dateFilter dr (l.filter p) = (dateFilter dr l).filter p := by
  rcases dr with _ | ⟨s, _ | ⟨e, _ | ⟨x, rest⟩⟩⟩
  · rfl
  · rfl
  · rw [dateFilter_pair, dateFilter_pair, List.filter_filter, List.filter_filter]
    exact List.filter_congr (fun r _ => Bool.and_comm _ _)
  · rfl

theorem dateFilter_idem (dr : List Date) (l : List Transaction) :
    dateFilter dr (dateFilter dr l) = dateFilter dr l := by
  rcases dr with _ | ⟨s, _ | ⟨e, _ | ⟨x, rest⟩⟩⟩
  · rfl
  · rfl
  · rw [dateFilter_pair, dateFilter_pair, List.filter_filter]
    exact List.filter_congr (fun r _ => Bool.and_self _)
  · rfl

theorem categoryFilter_split (cs ps : List Str) (v : List Transaction) :
    categoryFilter cs ps v =
      (v.filter (fun r => cs.contains r.country)).filter
        (fun r => ps.contains r.productName) := by
  unfold categoryFilter
  rw [List.filter_filter]
  exact List.filter_congr (fun r _ => Bool.and_comm _ _)

theorem countryStage_eq (d : List Transaction) (cSel : Option Str)
    (v : List Transaction) (hv : ∀ r ∈ v, r ∈ d) :
    v.filter (fun r => (countrySelection d cSel).contains r.country) =
      countrySelectFilter cSel v := by
  cases cSel with
  | none =>
      show _ = v
      apply List.filter_eq_self.mpr
      intro r hr
      exact (contains_iff_mem _ _).mpr
        (mem_uniqueVals (List.mem_map.mpr ⟨r, hv r hr, rfl⟩))
  | some c =>
      show _ = v.filter (fun r => r.country == c)
      exact List.filter_congr (fun r _ => contains_singleton c r.country)

theorem productStage_eq (d : List Transaction) (pSel : Option Str)
    (v : List Transaction) (hv : ∀ r ∈ v, r ∈ d) :
    v.filter (fun r => (productSelection d pSel).contains r.productName) =
      productSelectFilter pSel v := by
  cases pSel with
  | none =>
      show _ = v
      apply List.filter_eq_self.mpr
      intro r hr
      exact (contains_iff_mem _ _).mpr
        (mem_uniqueVals (List.mem_map.mpr ⟨r, hv r hr, rfl⟩))
  | some p =>
      show _ = v.filter (fun r => r.productName == p)
      exact List.filter_congr (fun r _ => contains_singleton p r.productName)

theorem priceRange_default_id (d w : List Transaction) (hw : ∀ r ∈ w, r ∈ d) :
    priceRangeFilter (minPrice d) (maxPrice d) w = w := by
  apply List.filter_eq_self.mpr
  intro r hr
  simp only [Bool.and_eq_true, decide_eq_true_eq]
  exact ⟨colMin_le _ _ (hw r hr), le_colMax _ _ (hw r hr)⟩

theorem quantityRange_default_id (d w : List Transaction) (hw : ∀ r ∈ w, r ∈ d) :
    quantityRangeFilter (minQty d) (maxQty d) w = w := by
  apply List.filter_eq_self.mpr
  intro r hr
  simp only [Bool.and_eq_true, decide_eq_true_eq]
  exact ⟨colMin_le _ _ (hw r hr), le_colMax _ _ (hw r hr)⟩

/-! ### Claim theorems -/

/-- C1 (counterexample): with an empty country selection, `app.py`'s
category filter excludes a record that should pass if an empty set
meant "no restriction" — `isin([])` is false for every row, so nothing
passes. -/
theorem c1_empty_selection_excludes :
    tUS ∈ ([tUS] : List Transaction) ∧
      tUS ∉ filtered_data [tUS]
        (Criteria.mk [] [] ["Widget".toList]) := by
  refine ⟨List.mem_cons_self tUS [], ?_⟩
  decide

/-- C1 (amended): an empty category selection set excludes every record
(the filtered view is empty); the default-select-all behavior arises
because the multiselect widgets default to all distinct values of the
column, and with those default selections the category criterion passes
every record of the date-filtered view. -/
theorem c1_empty_selection_behavior (d : List Transaction) (dr : List Date)
    (cs ps : List Str) :
    filtered_data d (Criteria.mk dr [] ps) = [] ∧
    filtered_data d (Criteria.mk dr cs []) = [] ∧
    filtered_data d (Criteria.mk dr
        (uniqueVals (d.map (fun r => r.country)))
        (uniqueVals (d.map (fun r => r.productName)))) = dateFilter dr d := by
  refine ⟨?_, ?_, ?_⟩
  · apply List.filter_eq_nil_iff.mpr
    intro r _
    simp [List.contains, List.elem]
  · apply List.filter_eq_nil_iff.mpr
    intro r _
    simp [List.contains, List.elem]
  · apply List.filter_eq_self.mpr
    intro r hr
    have hrd : r ∈ d := mem_dateFilter hr
    rw [Bool.and_eq_true]
    exact ⟨(contains_iff_mem _ _).mpr
        (mem_uniqueVals (List.mem_map.mpr ⟨r, hrd, rfl⟩)),
      (contains_iff_mem _ _).mpr
        (mem_uniqueVals (List.mem_map.mpr ⟨r, hrd, rfl⟩))⟩

/-- C4: the Total Sales metric is exactly the sum of Price × Quantity
over the records of the view (each record's Sales field is that
product), and it is 0 for the empty view. -/
theorem c4_total_sales_exact (view : List Transaction)
    (h : ∀ r ∈ view, r.sales = r.price * (r.quantity : ℚ)) :
    totalSales view = (view.map (fun r => r.price * (r.quantity : ℚ))).sum ∧
    totalSales ([] : List Transaction) = 0 := by
  refine ⟨?_, rfl⟩
  unfold totalSales
  congr 1
  exact List.map_congr_left h

/-- Witness for C4 at a concrete one-record view. -/
theorem c4_total_sales_exact_witness :
    (∀ r ∈ [tUS], r.sales = r.price * (r.quantity : ℚ)) ∧
    (totalSales [tUS] = ([tUS].map (fun r => r.price * (r.quantity : ℚ))).sum ∧
     totalSales ([] : List Transaction) = 0) := by
  have h : ∀ r ∈ [tUS], r.sales = r.price * (r.quantity : ℚ) := by
    intro r hr
    rw [List.mem_singleton.mp hr]
    norm_num [tUS]
  exact ⟨h, c4_total_sales_exact [tUS] h⟩

/-- C6: a malformed date interval (fewer than two endpoints) makes the
date criterion pass every record unchanged (no error is raised), and
with two endpoints a record passes iff start ≤ Date ≤ end, inclusive at
both ends. -/
theorem c6_date_interval_handling (d : List Transaction) (dr : List Date) :
    (dr.length < 2 → dateFilter dr d = d) ∧
    (∀ s e r, r ∈ dateFilter [s, e] d ↔
      r ∈ d ∧ (Date.le s r.date && Date.le r.date e) = true) := by
  refine ⟨dateFilter_of_short d, ?_⟩
  intro s e r
  rw [dateFilter_pair]
  exact List.mem_filter

/-- Witness for C6 at a concrete one-endpoint interval and a concrete
two-endpoint interval. -/
theorem c6_date_interval_handling_witness :
    dateFilter [Date.mk 2023 1 1] [tUS] = [tUS] ∧
    (tUS ∈ dateFilter [Date.mk 2023 1 1, Date.mk 2023 12 31] [tUS] ↔
      tUS ∈ [tUS] ∧
        (Date.le (Date.mk 2023 1 1) tUS.date &&
          Date.le tUS.date (Date.mk 2023 12 31)) = true) :=
  ⟨(c6_date_interval_handling [tUS] [Date.mk 2023 1 1]).1 (by decide),
   (c6_date_interval_handling [tUS] [Date.mk 2023 1 1]).2
     (Date.mk 2023 1 1) (Date.mk 2023 12 31) tUS⟩

/-- C7: applying the same criteria to an already-filtered view changes
nothing — the `app.py` filter chain is idempotent, record-for-record
and in order. -/
theorem c7_filter_idempotent (d : List Transaction) (c : Criteria) :
    filtered_data (filtered_data d c) c = filtered_data d c := by
  unfold filtered_data categoryFilter
  rw [dateFilter_filter_comm, dateFilter_idem, List.filter_filter]
  exact List.filter_congr (fun r _ => Bool.and_self _)

/-- C9: filtering only selects records — every record of a filtered
view (in either script variant) is a record of the input dataset,
unmodified — and every record produced by either loader satisfies
Sales = Price × Quantity. -/
theorem c9_views_preserve_records :
    (∀ (d : List Transaction) (c : Criteria) (r : Transaction),
        r ∈ filtered_data d c → r ∈ d) ∧
    (∀ (d : List Transaction) (dr : List Date) (cSel pSel : Option Str)
        (plo phi : ℚ) (qlo qhi : ℤ) (r : Transaction),
        r ∈ filteredUpdated d dr cSel pSel plo phi qlo qhi → r ∈ d) ∧
    (∀ (csv : Csv) (recs : List Transaction),
        load_data csv = Except.ok recs →
        ∀ r ∈ recs, r.sales = r.price * (r.quantity : ℚ)) ∧
    (∀ (csv : Csv) (recs : List Transaction),
        load_data_updated csv = Except.ok recs →
        ∀ r ∈ recs, r.sales = r.price * (r.quantity : ℚ)) :=
  ⟨fun _ _ _ h => mem_filtered_data h,
   fun _ _ _ _ _ _ _ _ _ h => mem_filteredUpdated h,
   fun _ _ h => load_data_sales h,
   fun _ _ h => load_data_updated_sales h⟩

/-- Witness for C9 at concrete inputs: a record surviving both filter
chains, and the loaders run on a header-only source. -/
theorem c9_views_preserve_records_witness :
    tUS ∈ ([tUS] : List Transaction) ∧
    (∀ r ∈ ([] : List Transaction), r.sales = r.price * (r.quantity : ℚ)) := by
  refine ⟨?_, ?_⟩
  · exact c9_views_preserve_records.1 [tUS]
      (Criteria.mk [] ["US".toList] ["Widget".toList]) tUS (by decide)
  · exact c9_views_preserve_records.2.2.1 csvHeaderOnly [] rfl

/-- C10: with the slider defaults — price range `[min Price, max Price]`
and quantity range `[min Quantity, max Quantity]` of the dataset — the
numeric range filters pass every record of any view drawn from the
dataset. -/
theorem c10_default_ranges_identity (d view : List Transaction)
    (hsub : ∀ r ∈ view, r ∈ d) :
    priceRangeFilter (minPrice d) (maxPrice d) view = view ∧
    quantityRangeFilter (minQty d) (maxQty d) view = view :=
  ⟨priceRange_default_id d view hsub, quantityRange_default_id d view hsub⟩

/-- Witness for C10 at a concrete two-record dataset and one-record
view. -/
theorem c10_default_ranges_identity_witness :
    (∀ r ∈ [tUS], r ∈ [tUS, tUK]) ∧
    (priceRangeFilter (minPrice [tUS, tUK]) (maxPrice [tUS, tUK]) [tUS] = [tUS] ∧
     quantityRangeFilter (minQty [tUS, tUK]) (maxQty [tUS, tUK]) [tUS] = [tUS]) := by
  have hsub : ∀ r ∈ [tUS], r ∈ ([tUS, tUK] : List Transaction) := by
    intro r hr
    rw [List.mem_singleton.mp hr]
    exact List.mem_cons_self _ _
  exact ⟨hsub, c10_default_ranges_identity [tUS, tUK] [tUS] hsub⟩

/-- C2 (counterexample): in a view where product `B` is seen first and
both products tie on summed sales, `top_products` lists `A` before `B`
— the tie is not broken by first-seen order.  (`groupby` sorts its keys
alphabetically, discarding first-seen order before the value sort.) -/
theorem c2_ties_not_first_seen :
    viewTie.map (fun r => r.productName) = ["B".toList, "A".toList] ∧
    topProductsBySales viewTie 10 = [("A".toList, 20), ("B".toList, 20)] := by
  refine ⟨rfl, ?_⟩
  simp +decide [topProductsBySales, groupSum, viewTie, tProdA, tProdB, uniqueVals,
    uniqueAux, sortBy, insertBy, strAscLt, valDescLt]

/-- C2 (amended): `topProductsBySales(view, n)` returns
min(n, distinct-product-count) pairs, ordered by strictly descending
summed sales with ties broken by ascending product name — the
alphabetical order the sorted `groupby` leaves ties in — not by
first-seen order. -/
theorem c2_top_products_shape (view : List Transaction) (n : Nat) :
    (topProductsBySales view n).length = min n (distinctProductCount view) ∧
    (topProductsBySales view n).Pairwise topOrder := by
  constructor
  · unfold topProductsBySales distinctProductCount groupSum
    rw [List.length_take, length_sortBy, List.length_map, length_sortBy]
  · exact List.Pairwise.sublist (List.take_sublist _ _)
      (pairwise_sortBy_desc _ (groupSum_pairwise_fst _ view))

/-- C3 (counterexample): exporting a one-record filtered view with
`convert_to_csv` and re-running `load_data` on the result does not
yield a dataset at all — the load aborts with a date-parse error,
because the export renders dates as ISO `YYYY-MM-DD` while the loader
parses only `%m/%d/%Y`. -/
theorem c3_roundtrip_fails_concrete :
    load_data (convert_to_csv [tUS]) = Except.error LoadError.dateParse := rfl

/-- C3 (amended): the CSV round-trip fails for every nonempty filtered
view (with non-null category fields): re-running `load_data` on the
exported bytes aborts with a date-parse error instead of producing a
dataset, because `to_csv` renders the Date column as `YYYY-MM-DD` while
`load_data` parses the fixed format `%m/%d/%Y`.  Only the empty view
survives the round-trip. -/
theorem c3_roundtrip_fails (view : List Transaction) (hne : view ≠ [])
    (hfields : ∀ r ∈ view, r.country ≠ [] ∧ r.productName ≠ []) :
    load_data (convert_to_csv view) = Except.error LoadError.dateParse := by
  obtain ⟨r0, rest, rfl⟩ := List.exists_cons_of_ne_nil hne
  unfold load_data loadRows
  rw [dropna_convert_to_csv _ hfields, List.map_cons]
  exact loadParsed_date_error _ _ _ 0 rfl (dateCell_csvRow 0 r0 rfl)

/-- Witness for C3 at a concrete one-record view. -/
theorem c3_roundtrip_fails_witness :
    (([tUK] : List Transaction) ≠ [] ∧
      ∀ r ∈ [tUK], r.country ≠ [] ∧ r.productName ≠ []) ∧
    load_data (convert_to_csv [tUK]) = Except.error LoadError.dateParse :=
  ⟨⟨by decide, by decide⟩, c3_roundtrip_fails [tUK] (by decide) (by decide)⟩

/-- C5 (counterexample): `app.py`'s `load_data` on a source missing the
required Country column succeeds — it raises no `MissingColumnsError`
(the script only fails later, at filter-widget setup, after the date
filter has already been applied). -/
theorem c5_app_load_lacks_column_check :
    (load_data csvNoCountry).isOk = true ∧
    load_data csvNoCountry ≠ Except.error LoadError.missingColumns := by
  have h : (load_data csvNoCountry).isOk = true := rfl
  refine ⟨h, ?_⟩
  intro heq
  rw [heq] at h
  exact Bool.noConfusion h

/-- C5 (amended): in `app_updated.py` a source missing any required
column makes the load fail with `MissingColumnsError` before any
filtering (the load-then-filter pipeline yields that error and no
view); `app.py` has no such check — its load fails (with a key error)
only when the Date column it touches is absent. -/
theorem c5_column_check_behavior :
    (∀ (csv : Csv) (dr : List Date) (cSel pSel : Option Str)
        (plo phi : ℚ) (qlo qhi : ℤ),
        requiredColumns.all (fun c => (colIdx csv.header c).isSome) = false →
        pipelineUpdated csv dr cSel pSel plo phi qlo qhi =
          Except.error LoadError.missingColumns) ∧
    (∀ csv : Csv, colIdx csv.header "Date".toList = none →
        load_data csv = Except.error LoadError.keyError) := by
  constructor
  · intro csv dr cSel pSel plo phi qlo qhi h
    unfold pipelineUpdated
    rw [load_data_updated_missing h]
    rfl
  · intro csv h
    exact load_data_no_date_col h

/-- Witness for C5 at a source with no columns at all. -/
theorem c5_column_check_behavior_witness :
    (requiredColumns.all (fun c => (colIdx csvNoHeader.header c).isSome) = false ∧
      colIdx csvNoHeader.header "Date".toList = none) ∧
    (pipelineUpdated csvNoHeader [] none none 0 0 0 0 =
        Except.error LoadError.missingColumns ∧
      load_data csvNoHeader = Except.error LoadError.keyError) :=
  ⟨⟨by decide, by decide⟩,
   c5_column_check_behavior.1 csvNoHeader [] none none 0 0 0 0 (by decide),
   c5_column_check_behavior.2 csvNoHeader (by decide)⟩

/-- C8: the two script variants compute the same result from the same
dataset and equivalent filter selections — with the selectbox choices
mapped to the corresponding multiselect selections and the sliders at
their defaults, both variants produce identical filtered views, and
hence identical total sales, transaction counts, total quantities, top
products, sales by country, and heatmap cells. -/
theorem c8_variants_equivalent (d : List Transaction) (dr : List Date)
    (cSel pSel : Option Str) :
    filtered_data d
        (Criteria.mk dr (countrySelection d cSel) (productSelection d pSel)) =
      filteredUpdated d dr cSel pSel (minPrice d) (maxPrice d)
        (minQty d) (maxQty d) ∧
    totalSales (filtered_data d
        (Criteria.mk dr (countrySelection d cSel) (productSelection d pSel))) =
      totalSales (filteredUpdated d dr cSel pSel (minPrice d) (maxPrice d)
        (minQty d) (maxQty d)) ∧
    transactionCount (filtered_data d
        (Criteria.mk dr (countrySelection d cSel) (productSelection d pSel))) =
      transactionCount (filteredUpdated d dr cSel pSel (minPrice d) (maxPrice d)
        (minQty d) (maxQty d)) ∧
    totalQuantity (filtered_data d
        (Criteria.mk dr (countrySelection d cSel) (productSelection d pSel))) =
      totalQuantity (filteredUpdated d dr cSel pSel (minPrice d) (maxPrice d)
        (minQty d) (maxQty d)) ∧
    top_products (filtered_data d
        (Criteria.mk dr (countrySelection d cSel) (productSelection d pSel))) =
      top_products (filteredUpdated d dr cSel pSel (minPrice d) (maxPrice d)
        (minQty d) (maxQty d)) ∧
    salesByCountry (filtered_data d
        (Criteria.mk dr (countrySelection d cSel) (productSelection d pSel))) =
      salesByCountry (filteredUpdated d dr cSel pSel (minPrice d) (maxPrice d)
        (minQty d) (maxQty d)) ∧
    seasonalHeatmap (filtered_data d
        (Criteria.mk dr (countrySelection d cSel) (productSelection d pSel))) =
      seasonalHeatmap (filteredUpdated d dr cSel pSel (minPrice d) (maxPrice d)
        (minQty d) (maxQty d)) := by
  have hvsub : ∀ r ∈ dateFilter dr d, r ∈ d := fun r hr => mem_dateFilter hr
  have hcsub : ∀ r ∈ countrySelectFilter cSel (dateFilter dr d), r ∈ d :=
    fun r hr => hvsub r (mem_countrySelectFilter hr)
  have hwsub : ∀ r ∈ productSelectFilter pSel
      (countrySelectFilter cSel (dateFilter dr d)), r ∈ d :=
    fun r hr => hcsub r (mem_productSelectFilter hr)
  have hview : filtered_data d
      (Criteria.mk dr (countrySelection d cSel) (productSelection d pSel)) =
      filteredUpdated d dr cSel pSel (minPrice d) (maxPrice d)
        (minQty d) (maxQty d) := by
    unfold filtered_data filteredUpdated
    rw [categoryFilter_split, countryStage_eq d cSel _ hvsub,
      productStage_eq d pSel _ hcsub,
      priceRange_default_id d _ hwsub, quantityRange_default_id d _ hwsub]
  exact ⟨hview, by rw [hview], by rw [hview], by rw [hview], by rw [hview],
    by rw [hview], by rw [hview]⟩

end SalesDash
